import Mathlib

/-!
Shallow embedding of `src/main.py` from the repository `dvm_API_5`: a
fetch-normalize-aggregate pipeline that collects vacancy statistics for a
fixed catalog of programming languages from two job-board backends (HH,
count-of-pages pagination; SuperJob, more-flag pagination), normalizes each
raw salary record into a rouble estimate, and aggregates per-language
statistics.

Modelling conventions:
- Python `None`-or-number values become `Option ℚ`; Python truthiness of such
  a value (`None` and `0` are falsy) is `truthy`.
- Python float arithmetic on salary values is modelled exactly over `ℚ`
  (the literals `1.2` and `0.8` are the exact rationals 6/5 and 4/5).
- `int(x)` on a float is truncation toward zero, `pyTrunc`.
- Exceptions (`HTTPError` from `raise_for_status`, `TypeError` from
  `int(None)`) become `Except PyError`.
- The two `while True` pagination loops are given as fuel-indexed recursions
  returning `none` when the fuel runs out; `(∀ fuel, loop = none)` states
  that the Python loop never terminates on that backend.  The loops also
  return the trace of requested page indices, so pagination claims can speak
  about the exact requests issued.
-/

/-- Python exceptions that the code under `src/main.py` can raise. -/
inductive PyError where
  | httpError (status : ℕ)
  | typeError
deriving DecidableEq

/-- Python truthiness of an optional number: `None` and `0` are falsy,
every other number is truthy. -/
def truthy : Option ℚ → Bool
  | none => false
  | some q => decide (q ≠ 0)

/-- Python `int(x)` applied to a rational: truncation toward zero. -/
def pyTrunc (q : ℚ) : ℤ :=
  Int.tdiv q.num (q.den : ℤ)

/-- `predict_rub_salary(salary_from, salary_to)` from `src/main.py`
(lines 133-148): the shared Estimator.  The Python code tests the two
arguments by truthiness (`if salary_from and salary_to: ...`) and falls off
the end (returning `None`) when neither argument is truthy. -/
def predict_rub_salary (salary_from salary_to : Option ℚ) : Option ℚ :=
  if truthy salary_from && truthy salary_to then
    some ((salary_from.getD 0 + salary_to.getD 0) / 2)
  else if truthy salary_from then
    some (salary_from.getD 0 * 1.2)
  else if truthy salary_to then
    some (salary_to.getD 0 * 0.8)
  else
    none

/-- The `"salary"` object of an HH vacancy: fields `"from"`, `"to"` (numbers
or `null`) and `"currency"` (string, possibly missing, so `Option`).
The fields `"from"`/`"to"` are named `salary_from`/`salary_to` because
`from` is a Lean keyword. -/
structure HHVacancy where
  currency : Option String
  salary_from : Option ℚ
  salary_to : Option ℚ
deriving DecidableEq

/-- `predict_rub_salary_hh(vacancy)` from `src/main.py` (lines 151-164).
Returns `None` when the vacancy is falsy or its currency is not `"RUR"`;
otherwise evaluates `int(predict_rub_salary(vacancy.get("from"),
vacancy.get("to")))`, which raises `TypeError` when `predict_rub_salary`
returned `None` (Python `int(None)`). -/
def predict_rub_salary_hh (vacancy : Option HHVacancy) : Except PyError (Option ℤ) :=
  match vacancy with
  | none => Except.ok none
  | some vac =>
    if vac.currency ≠ some "RUR" then Except.ok none
    else
      match predict_rub_salary vac.salary_from vac.salary_to with
      | none => Except.error PyError.typeError
      | some q => Except.ok (some (pyTrunc q))

/-- One extracted SuperJob record as built by the adapter: fields
`payment_from`, `payment_to` (numbers, `0` meaning unspecified; modelled as
`Option ℚ` to cover an absent value as well) and the town title. -/
structure SJVacancy where
  payment_from : Option ℚ
  payment_to : Option ℚ
  town : String
deriving DecidableEq

/-- `predict_rub_salary_sj(vacancy)` from `src/main.py` (lines 167-178).
Returns `None` when both payment fields are falsy, otherwise
`int(predict_rub_salary(payment_from, payment_to))`. -/
def predict_rub_salary_sj (vacancy : SJVacancy) : Except PyError (Option ℤ) :=
  if !(truthy vacancy.payment_from) && !(truthy vacancy.payment_to) then
    Except.ok none
  else
    match predict_rub_salary vacancy.payment_from vacancy.payment_to with
    | none => Except.error PyError.typeError
    | some q => Except.ok (some (pyTrunc q))

/-- One HH search response, as consumed by `get_hh_salaries_by_language`:
HTTP status, the reported total match count `"found"`, the reported total
page count `"pages"`, and the list of `"salary"` objects of the items
(possibly `null`). -/
structure HHResponse where
  status : ℕ
  found : ℕ
  pages : ℕ
  items : List (Option HHVacancy)

/-- One SuperJob search response, as consumed by
`get_sj_salaries_by_language`: HTTP status, the reported total match count
`"total"`, the `"more"` flag, and the list of vacancy objects. -/
structure SJResponse where
  status : ℕ
  total : ℕ
  more : Bool
  objects : List SJVacancy

/-- The dictionary returned by both adapters:
`{"found": ..., "items": [...]}`.  `found` starts as `None` and is
overwritten on every fetched page. -/
structure Salaries (α : Type) where
  found : Option ℕ
  items : List α
deriving DecidableEq

/-- `response.raise_for_status()`: Python `requests` raises `HTTPError`
exactly for status codes 400 and above. -/
def raise_for_status (status : ℕ) : Except PyError Unit :=
  if 400 ≤ status then Except.error (PyError.httpError status) else Except.ok ()

/-- The `while True` pagination loop of `get_hh_salaries_by_language`
(`src/main.py` lines 53-74), indexed by fuel.  A backend is a function from
page index to response.  The result records the trace of requested page
indices together with the outcome; `none` means the fuel ran out, so
`(∀ fuel, ... = none)` means the Python loop never terminates.  The loop
body requests the page, raises for a bad status, appends the salary
objects of the page, overwrites `found`, increments `page` and stops when the new page
index reaches the reported `"pages"` count. -/
def hh_fetch_loop (backend : ℕ → HHResponse) :
    ℕ → ℕ → Option ℕ → List (Option HHVacancy) →
    Option (List ℕ × Except PyError (Salaries (Option HHVacancy)))
  | 0, _, _, _ => none
  | Nat.succ fuel, page, _found, items =>
    let resp := backend page
    match raise_for_status resp.status with
    | Except.error e => some ([page], Except.error e)
    | Except.ok _ =>
      let items := items ++ resp.items
      let found := some resp.found
      if page + 1 ≥ resp.pages then
        some ([page], Except.ok ⟨found, items⟩)
      else
        match hh_fetch_loop backend fuel (page + 1) found items with
        | none => none
        | some (reqs, r) => some (page :: reqs, r)

/-- `get_hh_salaries_by_language` from `src/main.py` (lines 33-76),
abstracted over the HTTP transport: the loop starts at page 0 with
`found = None` and an empty item list. -/
def get_hh_salaries_by_language (backend : ℕ → HHResponse) (fuel : ℕ) :
    Option (List ℕ × Except PyError (Salaries (Option HHVacancy))) :=
  hh_fetch_loop backend fuel 0 none []

/-- The `while True` pagination loop of `get_sj_salaries_by_language`
(`src/main.py` lines 105-128), indexed by fuel, in the same style as
`hh_fetch_loop`.  The loop body requests the page, raises for a bad
status, appends the extracted records of the page, overwrites `found`, and
stops as soon as the `"more"` flag of the response is false; otherwise it
increments `page` and repeats. -/
def sj_fetch_loop (backend : ℕ → SJResponse) :
    ℕ → ℕ → Option ℕ → List SJVacancy →
    Option (List ℕ × Except PyError (Salaries SJVacancy))
  | 0, _, _, _ => none
  | Nat.succ fuel, page, _found, items =>
    let resp := backend page
    match raise_for_status resp.status with
    | Except.error e => some ([page], Except.error e)
    | Except.ok _ =>
      let items := items ++ resp.objects
      let found := some resp.total
      if !resp.more then
        some ([page], Except.ok ⟨found, items⟩)
      else
        match sj_fetch_loop backend fuel (page + 1) found items with
        | none => none
        | some (reqs, r) => some (page :: reqs, r)

/-- `get_sj_salaries_by_language` from `src/main.py` (lines 79-130),
abstracted over the HTTP transport. -/
def get_sj_salaries_by_language (backend : ℕ → SJResponse) (fuel : ℕ) :
    Option (List ℕ × Except PyError (Salaries SJVacancy)) :=
  sj_fetch_loop backend fuel 0 none []

/-- The fixed `LANGUAGES` tuple from `src/main.py` (lines 12-27). -/
def LANGUAGES : List String :=
  ["TypeScript", "Swift", "Scala", "Objective-C", "Shell", "Go", "C",
   "C#", "C++", "PHP", "Ruby", "Python", "Java", "JavaScript"]

/-- Sequential effectful map in the `Except` "monad", written out as the
explicit propagation a Python `for` loop performs: the first raised
exception aborts the whole traversal. -/
def exceptMapList {ε α β : Type} (f : α → Except ε β) : List α → Except ε (List β)
  | [] => Except.ok []
  | x :: xs =>
    match f x with
    | Except.error e => Except.error e
    | Except.ok y =>
      match exceptMapList f xs with
      | Except.error e => Except.error e
      | Except.ok ys => Except.ok (y :: ys)

/-- Python `list(filter(None, xs))` over a list of `int | None` values:
keep exactly the truthy elements, i.e. the present, nonzero integers. -/
def pyFilterNone (xs : List (Option ℤ)) : List ℤ :=
  xs.filterMap fun o =>
    match o with
    | none => none
    | some z => if z = 0 then none else some z

/-- Python `int(a / n)` for an integer `a` and a positive integer `n`:
true division followed by truncation toward zero. -/
def pyIntDiv (a : ℤ) (n : ℕ) : ℤ :=
  pyTrunc ((a : ℚ) / (n : ℚ))

/-- The statistics record built for one language by `get_vacancies_stat`
(`src/main.py` lines 224-230). -/
structure LangStat where
  vacancies_found : Option ℕ
  vacancies_processed : ℕ
  average_salary : ℤ
deriving DecidableEq

/-- The per-language body of `get_vacancies_stat` (`src/main.py` lines
219-230), given the fetched `found` count and the list of per-record
predictions: filter out falsy predictions, count and sum the survivors,
and guard the average against an empty list. -/
def stats_for_language (found : Option ℕ) (preds : List (Option ℤ)) : LangStat :=
  let valid_salaries := pyFilterNone preds
  let vacancies_processed_count := valid_salaries.length
  let total_sum_salary := valid_salaries.sum
  ⟨found, vacancies_processed_count,
   if vacancies_processed_count ≠ 0 then
     pyIntDiv total_sum_salary vacancies_processed_count
   else 0⟩

/-- `get_vacancies_stat(salary_getter, predict_salary)` from `src/main.py`
(lines 207-232), abstracted over the two strategy functions exactly as the
Python code is.  The languages are processed sequentially in catalog order
and an exception raised by either strategy propagates, abandoning the
whole table. -/
def get_vacancies_stat {α : Type}
    (salary_getter : String → Except PyError (Salaries α))
    (predict_salary : α → Except PyError (Option ℤ)) :
    Except PyError (List (String × LangStat)) :=
  exceptMapList
    (fun language =>
      match salary_getter language with
      | Except.error e => Except.error e
      | Except.ok salaries =>
        match exceptMapList predict_salary salaries.items with
        | Except.error e => Except.error e
        | Except.ok preds =>
          Except.ok (language, stats_for_language salaries.found preds))
    LANGUAGES

/-! ### Helper lemmas -/

/-- Truncation toward zero agrees with the floor on nonnegative rationals. -/
theorem pyTrunc_eq_floor {q : ℚ} (h : 0 ≤ q) : pyTrunc q = ⌊q⌋ := by
  rw [pyTrunc, Rat.floor_def,
    Int.tdiv_eq_ediv (Rat.num_nonneg.mpr h) (Int.natCast_nonneg q.den)]

/-- An optional number is falsy exactly when it is `None` or `0`. -/
theorem truthy_eq_false_iff (o : Option ℚ) :
    truthy o = false ↔ (o = none ∨ o = some 0) := by
  cases o with
  | none => simp [truthy]
  | some q => simp [truthy]

/-- The Estimator returns `None` exactly when both arguments are falsy. -/
theorem predict_rub_salary_eq_none_iff (salary_from salary_to : Option ℚ) :
    predict_rub_salary salary_from salary_to = none ↔
      (truthy salary_from = false ∧ truthy salary_to = false) := by
  unfold predict_rub_salary
  cases h1 : truthy salary_from <;> cases h2 : truthy salary_to <;> simp

/-- A successful `exceptMapList` run means every element succeeded. -/
theorem exceptMapList_forall_of_ok {ε α β : Type} (f : α → Except ε β) :
    ∀ (xs : List α) (ys : List β), exceptMapList f xs = Except.ok ys →
      ∀ x ∈ xs, ∃ y, f x = Except.ok y := by
  intro xs
  induction xs with
  | nil => simp
  | cons a as ih =>
    intro ys h x hx
    cases hfa : f a with
    | error e => rw [exceptMapList, hfa] at h; exact absurd h (by simp)
    | ok y =>
      rw [exceptMapList, hfa] at h
      cases hrest : exceptMapList f as with
      | error e => rw [hrest] at h; exact absurd h (by simp)
      | ok ys2 =>
        rw [hrest] at h
        rcases List.mem_cons.mp hx with rfl | hx2
        · exact ⟨y, hfa⟩
        · exact ih ys2 hrest x hx2

/-- Every element of a successful `exceptMapList` result is the successful
image of some input element. -/
theorem exceptMapList_mem_of_ok {ε α β : Type} (f : α → Except ε β) :
    ∀ (xs : List α) (ys : List β), exceptMapList f xs = Except.ok ys →
      ∀ y ∈ ys, ∃ x ∈ xs, f x = Except.ok y := by
  intro xs
  induction xs with
  | nil =>
    intro ys h y hy
    rw [exceptMapList] at h
    cases h
    exact absurd hy (by simp)
  | cons a as ih =>
    intro ys h y hy
    cases hfa : f a with
    | error e => rw [exceptMapList, hfa] at h; exact absurd h (by simp)
    | ok b =>
      rw [exceptMapList, hfa] at h
      cases hrest : exceptMapList f as with
      | error e => rw [hrest] at h; exact absurd h (by simp)
      | ok ys2 =>
        rw [hrest] at h
        cases h
        rcases List.mem_cons.mp hy with rfl | hy2
        · exact ⟨a, by simp, hfa⟩
        · obtain ⟨x, hx, hfx⟩ := ih ys2 hrest y hy2
          exact ⟨x, by simp [hx], hfx⟩

/-! ### Claim theorems -/

/-- C1 counterexample: the claim reads the cases of the Estimator over literal
presence of the optional bounds.  At lower bound `0` (present) and upper
bound `100` (present) the code does not return the midpoint `(0+100)/2 = 50`:
Python truthiness treats the zero lower bound as missing and the code
returns `100 * 0.8 = 80`. -/
theorem predict_rub_salary_present_zero_counterexample :
    predict_rub_salary (some 0) (some 100) = some 80 ∧
    predict_rub_salary (some 0) (some 100) ≠ some ((0 + 100) / 2) := by
  constructor
  · norm_num [predict_rub_salary, truthy]
  · norm_num [predict_rub_salary, truthy]

/-- C1 (amended): with "present" meaning Python-truthy (a value that is
given and nonzero), the Estimator returns the midpoint when both bounds are
truthy, `lower * 1.2` when only the lower is truthy, `upper * 0.8` when
only the upper is truthy, and `None` when neither is; the result is the
exact rational, not truncated inside the Estimator (final conjunct: a
half-integer output is delivered untruncated). -/
theorem predict_rub_salary_cases (salary_from salary_to : Option ℚ) :
    (truthy salary_from = true → truthy salary_to = true →
      predict_rub_salary salary_from salary_to =
        some ((salary_from.getD 0 + salary_to.getD 0) / 2)) ∧
    (truthy salary_from = true → truthy salary_to = false →
      predict_rub_salary salary_from salary_to =
        some (salary_from.getD 0 * 1.2)) ∧
    (truthy salary_from = false → truthy salary_to = true →
      predict_rub_salary salary_from salary_to =
        some (salary_to.getD 0 * 0.8)) ∧
    (truthy salary_from = false → truthy salary_to = false →
      predict_rub_salary salary_from salary_to = none) ∧
    predict_rub_salary (some 100) (some 101) = some (201 / 2) := by
  refine ⟨fun h1 h2 => ?_, fun h1 h2 => ?_, fun h1 h2 => ?_, fun h1 h2 => ?_, ?_⟩
  · simp [predict_rub_salary, h1, h2]
  · simp [predict_rub_salary, h1, h2]
  · simp [predict_rub_salary, h1, h2]
  · simp [predict_rub_salary, h1, h2]
  · norm_num [predict_rub_salary, truthy]

/-- Witness for the amended C1 theorem at lower `100`, upper `200`. -/
theorem predict_rub_salary_cases_witness :
    truthy (some (100 : ℚ)) = true ∧ truthy (some (200 : ℚ)) = true ∧
    predict_rub_salary (some 100) (some 200) =
      some (((some (100 : ℚ)).getD 0 + (some (200 : ℚ)).getD 0) / 2) :=
  ⟨by norm_num [truthy], by norm_num [truthy],
   (predict_rub_salary_cases (some 100) (some 200)).1
     (by norm_num [truthy]) (by norm_num [truthy])⟩

/-- C2: the code contradicts the claim (and its own docstring, which
promises `None` when the vacancy has no salary data).  On a rouble record
whose lower and upper bounds are both absent, `predict_rub_salary` returns
`None` and `predict_rub_salary_hh` then evaluates `int(None)`, raising
`TypeError` instead of returning an absent estimate. -/
theorem predict_rub_salary_hh_raises_on_empty_rur_record :
    predict_rub_salary_hh (some ⟨some "RUR", none, none⟩) =
      Except.error PyError.typeError := by
  norm_num [predict_rub_salary_hh, predict_rub_salary, truthy]

/-- C9: the HH normalizer returns an absent estimate for an entirely absent
record, and for any record whose currency code is not `"RUR"`, regardless
of the bounds of the record. -/
theorem predict_rub_salary_hh_foreign_currency_absent :
    predict_rub_salary_hh none = Except.ok none ∧
    ∀ vac : HHVacancy, vac.currency ≠ some "RUR" →
      predict_rub_salary_hh (some vac) = Except.ok none := by
  refine ⟨rfl, fun vac h => ?_⟩
  simp [predict_rub_salary_hh, h]

/-- Witness for C9 at a dollar-denominated record with both bounds set. -/
theorem predict_rub_salary_hh_foreign_currency_absent_witness :
    (HHVacancy.currency ⟨some "USD", some 100, some 200⟩ ≠ some "RUR") ∧
    predict_rub_salary_hh (some ⟨some "USD", some 100, some 200⟩) =
      Except.ok none :=
  ⟨by simp, predict_rub_salary_hh_foreign_currency_absent.2
    ⟨some "USD", some 100, some 200⟩ (by simp)⟩

/-- C8: the SuperJob normalizer returns an absent estimate exactly when
both payment fields are absent or zero, and a present integer estimate in
every other case (in particular it never raises). -/
theorem predict_rub_salary_sj_absent_iff (vac : SJVacancy) :
    (predict_rub_salary_sj vac = Except.ok none ↔
      ((vac.payment_from = none ∨ vac.payment_from = some 0) ∧
       (vac.payment_to = none ∨ vac.payment_to = some 0))) ∧
    (¬ ((vac.payment_from = none ∨ vac.payment_from = some 0) ∧
        (vac.payment_to = none ∨ vac.payment_to = some 0)) →
      ∃ z : ℤ, predict_rub_salary_sj vac = Except.ok (some z)) := by
  rw [← truthy_eq_false_iff, ← truthy_eq_false_iff]
  unfold predict_rub_salary_sj
  cases h1 : truthy vac.payment_from with
  | true =>
    have hn := (predict_rub_salary_eq_none_iff vac.payment_from vac.payment_to)
    cases hsome : predict_rub_salary vac.payment_from vac.payment_to with
    | none => rw [hsome] at hn; simp [h1] at hn
    | some q => simp [h1, hsome]
  | false =>
    cases h2 : truthy vac.payment_to with
    | true =>
      have hn := (predict_rub_salary_eq_none_iff vac.payment_from vac.payment_to)
      cases hsome : predict_rub_salary vac.payment_from vac.payment_to with
      | none => rw [hsome] at hn; simp [h2] at hn
      | some q => simp [h1, h2, hsome]
    | false => simp [h1, h2]

/-- Witness for C8 at a record with a nonzero lower payment field only. -/
theorem predict_rub_salary_sj_absent_iff_witness :
    (¬ (((some (100 : ℚ) : Option ℚ) = none ∨ (some (100 : ℚ) : Option ℚ) = some 0) ∧
        ((none : Option ℚ) = none ∨ (none : Option ℚ) = some 0))) ∧
    ∃ z : ℤ, predict_rub_salary_sj ⟨some 100, none, "Moscow"⟩ =
      Except.ok (some z) := by
  constructor
  · simp
  · exact (predict_rub_salary_sj_absent_iff ⟨some 100, none, "Moscow"⟩).2 (by simp)

/-- The filtered list counts exactly the present, nonzero predictions. -/
theorem pyFilterNone_length (preds : List (Option ℤ)) :
    (pyFilterNone preds).length =
      preds.countP (fun o => decide (o.getD 0 ≠ 0)) := by
  induction preds with
  | nil => rfl
  | cons o os ih =>
    cases o with
    | none => simpa [pyFilterNone, List.countP_cons] using ih
    | some z =>
      by_cases hz : z = 0
      · subst hz; simpa [pyFilterNone, List.countP_cons] using ih
      · simpa [pyFilterNone, List.countP_cons, hz] using ih

/-- C3: in every language statistics record built by the Aggregator,
`average_salary` is `0` when `vacancies_processed = 0` and otherwise (for
nonnegative kept estimates) the integer floor of the mean of the kept
estimates; every entry of a successfully produced table is such a record;
and the kept estimates `[100, 200, 300]` yield an average of `200`. -/
theorem get_vacancies_stat_average_salary :
    (∀ (found : Option ℕ) (preds : List (Option ℤ)),
      (∀ z ∈ pyFilterNone preds, 0 ≤ z) →
      ((stats_for_language found preds).vacancies_processed = 0 →
        (stats_for_language found preds).average_salary = 0) ∧
      (0 < (stats_for_language found preds).vacancies_processed →
        (stats_for_language found preds).average_salary =
          ⌊((pyFilterNone preds).sum : ℚ) / ((pyFilterNone preds).length : ℚ)⌋)) ∧
    (∀ {α : Type} (getter : String → Except PyError (Salaries α))
        (predict : α → Except PyError (Option ℤ))
        (table : List (String × LangStat)),
      get_vacancies_stat getter predict = Except.ok table →
      ∀ p ∈ table, ∃ found preds, p.2 = stats_for_language found preds) ∧
    (stats_for_language none [some 100, some 200, some 300]).average_salary = 200 := by
  refine ⟨?_, ?_, ?_⟩
  · intro found preds hnn
    constructor
    · intro h0
      simp only [stats_for_language] at h0 ⊢
      simp [h0]
    · intro hpos
      simp only [stats_for_language] at hpos ⊢
      rw [if_pos (by omega)]
      rw [pyIntDiv, pyTrunc_eq_floor]
      apply div_nonneg
      · exact_mod_cast List.sum_nonneg hnn
      · positivity
  · intro α getter predict table hok p hp
    obtain ⟨lang, _, hbody⟩ :=
      exceptMapList_mem_of_ok _ LANGUAGES table hok p hp
    cases hget : getter lang with
    | error e => rw [hget] at hbody; exact absurd hbody (by simp)
    | ok salaries =>
      rw [hget] at hbody
      dsimp only at hbody
      cases hpreds : exceptMapList predict salaries.items with
      | error e => rw [hpreds] at hbody; exact absurd hbody (by simp)
      | ok preds =>
        rw [hpreds] at hbody
        cases hbody
        exact ⟨salaries.found, preds, rfl⟩
  · have hlist : pyFilterNone [some 100, some 200, some 300] =
        ([100, 200, 300] : List ℤ) := by decide
    simp only [stats_for_language, hlist]
    norm_num [pyIntDiv, pyTrunc]

/-- Witness for C3: the kept estimates `[100, 200, 300]` are nonnegative,
three records are processed, and the average is the floor of their mean. -/
theorem get_vacancies_stat_average_salary_witness :
    (∀ z ∈ pyFilterNone [some 100, some 200, some 300], 0 ≤ z) ∧
    0 < (stats_for_language none [some 100, some 200, some 300]).vacancies_processed ∧
    (stats_for_language none [some 100, some 200, some 300]).average_salary =
      ⌊((pyFilterNone [some 100, some 200, some 300]).sum : ℚ) /
        ((pyFilterNone [some 100, some 200, some 300]).length : ℚ)⌋ :=
  ⟨by decide, by decide,
   (get_vacancies_stat_average_salary.1 none [some 100, some 200, some 300]
     (by decide)).2 (by decide)⟩

/-- Whether an `Except` computation succeeded. -/
def exceptIsOk {ε α : Type} : Except ε α → Bool
  | Except.ok _ => true
  | Except.error _ => false

/-- A computation with `exceptIsOk = true` is an `Except.ok`. -/
theorem exceptIsOk_eq_true_iff {ε α : Type} (r : Except ε α) :
    exceptIsOk r = true ↔ ∃ a, r = Except.ok a := by
  cases r <;> simp [exceptIsOk]

/-- C7: if the Backend Adapter raises for some language of the catalog,
the Aggregator run as a whole fails: `get_vacancies_stat` produces no
table at all (in the `Except` model, failure carries no partial table by
construction, matching uncaught exception propagation in Python). -/
theorem transport_error_aborts_table {α : Type}
    (salary_getter : String → Except PyError (Salaries α))
    (predict_salary : α → Except PyError (Option ℤ))
    (h : ∃ l ∈ LANGUAGES, exceptIsOk (salary_getter l) = false) :
    exceptIsOk (get_vacancies_stat salary_getter predict_salary) = false := by
  obtain ⟨l, hl, hbad⟩ := h
  cases hres : get_vacancies_stat salary_getter predict_salary with
  | error e => rfl
  | ok table =>
    exfalso
    obtain ⟨y, hy⟩ :=
      exceptMapList_forall_of_ok _ LANGUAGES table hres l hl
    cases hget : salary_getter l with
    | error e => rw [hget] at hy; exact absurd hy (by simp)
    | ok salaries => rw [hget, exceptIsOk] at hbad; exact absurd hbad (by simp)

/-- A transport that fails with HTTP 500 on every request. -/
def failingGetter : String → Except PyError (Salaries (Option HHVacancy)) :=
  fun _ => Except.error (PyError.httpError 500)

/-- Witness for C7: with a getter failing on `"TypeScript"` (indeed on
every language), the Aggregator produces no table. -/
theorem transport_error_aborts_table_witness :
    (∃ l ∈ LANGUAGES, exceptIsOk (failingGetter l) = false) ∧
    exceptIsOk (get_vacancies_stat failingGetter predict_rub_salary_hh) = false :=
  ⟨⟨"TypeScript", by simp [LANGUAGES], rfl⟩,
   transport_error_aborts_table failingGetter predict_rub_salary_hh
     ⟨"TypeScript", by simp [LANGUAGES], rfl⟩⟩

/-- C10: a prediction of exactly `0` is excluded from the tally just as an
absent prediction is: replacing a `0` estimate by an absent one changes
nothing in the language statistics, and `vacancies_processed` counts
exactly the present, nonzero estimates. -/
theorem zero_estimate_excluded_like_absent :
    (∀ (found : Option ℕ) (pre post : List (Option ℤ)),
      stats_for_language found (pre ++ some 0 :: post) =
        stats_for_language found (pre ++ none :: post)) ∧
    (∀ (found : Option ℕ) (preds : List (Option ℤ)),
      (stats_for_language found preds).vacancies_processed =
        preds.countP (fun o => decide (o.getD 0 ≠ 0))) := by
  constructor
  · intro found pre post
    have hsame : pyFilterNone (pre ++ some 0 :: post) =
        pyFilterNone (pre ++ none :: post) := by
      simp [pyFilterNone, List.filterMap_append]
    simp only [stats_for_language, hsame]
  · intro found preds
    simpa only [stats_for_language] using pyFilterNone_length preds

/-- From any page `p < N`, against a backend that answers successfully and
reports `N` total pages, the HH loop requests exactly the pages
`p, p+1, ..., N-1` and returns successfully, given enough fuel. -/
theorem hh_fetch_loop_requests (backend : ℕ → HHResponse) (N : ℕ)
    (hok : ∀ k, k < N → (backend k).status < 400)
    (hpages : ∀ k, k < N → (backend k).pages = N) :
    ∀ (fuel p : ℕ) (found : Option ℕ) (items : List (Option HHVacancy)),
      p < N → N - p ≤ fuel →
      ∃ f its, hh_fetch_loop backend fuel p found items =
        some (List.range' p (N - p), Except.ok ⟨f, its⟩) := by
  intro fuel
  induction fuel with
  | zero => intro p found items hp hf; omega
  | succ fuel ih =>
    intro p found items hp hf
    have hst : ¬ 400 ≤ (backend p).status := by
      have := hok p hp; omega
    have hN : (backend p).pages = N := hpages p hp
    rw [hh_fetch_loop]
    simp only [raise_for_status, if_neg hst]
    by_cases hlast : p + 1 ≥ (backend p).pages
    · have h1 : N - p = 1 := by omega
      rw [if_pos hlast, h1]
      exact ⟨_, _, by rw [List.range'_succ]; rfl⟩
    · have hpN : p + 1 < N := by omega
      rw [if_neg hlast]
      obtain ⟨f, its, hrec⟩ :=
        ih (p + 1) (some (backend p).found) (items ++ (backend p).items) hpN (by omega)
      rw [hrec]
      refine ⟨f, its, ?_⟩
      have h2 : N - p = (N - (p + 1)) + 1 := by omega
      rw [h2, List.range'_succ]

/-- C4: against any backend whose every answered page succeeds and reports
a total page count `N ≥ 1`, `get_hh_salaries_by_language` issues exactly
`N` requests, for the page indices `0, ..., N-1` in order, and then stops
(the just-fetched page index plus one has reached `N`). -/
theorem hh_pagination_requests (backend : ℕ → HHResponse) (N : ℕ)
    (hN : 1 ≤ N)
    (hok : ∀ k, k < N → (backend k).status < 400)
    (hpages : ∀ k, k < N → (backend k).pages = N)
    (fuel : ℕ) (hfuel : N ≤ fuel) :
    ∃ f its, get_hh_salaries_by_language backend fuel =
      some (List.range N, Except.ok ⟨f, its⟩) := by
  obtain ⟨f, its, h⟩ :=
    hh_fetch_loop_requests backend N hok hpages fuel 0 none [] (by omega) (by omega)
  refine ⟨f, its, ?_⟩
  rw [get_hh_salaries_by_language, h, List.range_eq_range']
  norm_num

/-- A mock HH backend reporting 3 total pages on every request. -/
def hhThreePageBackend : ℕ → HHResponse :=
  fun _ => ⟨200, 5, 3, []⟩

/-- Witness for C4: the 3-page mock yields exactly the requests
`[0, 1, 2]`. -/
theorem hh_pagination_requests_witness :
    (1 ≤ 3) ∧ (∀ k, k < 3 → (hhThreePageBackend k).status < 400) ∧
    (∀ k, k < 3 → (hhThreePageBackend k).pages = 3) ∧ (3 ≤ 3) ∧
    ∃ f its, get_hh_salaries_by_language hhThreePageBackend 3 =
      some (List.range 3, Except.ok ⟨f, its⟩) :=
  ⟨by omega, fun k _ => by simp [hhThreePageBackend],
   fun k _ => by simp [hhThreePageBackend], by omega,
   hh_pagination_requests hhThreePageBackend 3 (by omega)
     (fun k _ => by simp [hhThreePageBackend])
     (fun k _ => by simp [hhThreePageBackend]) 3 (by omega)⟩

/-- From any page `p ≤ k`, against a backend that answers successfully,
keeps the `"more"` flag true strictly before page `k` and clears it on
page `k`, the SuperJob loop requests exactly the pages `p, ..., k` and
returns successfully, given enough fuel. -/
theorem sj_fetch_loop_requests (backend : ℕ → SJResponse) (k : ℕ)
    (hok : ∀ j, j ≤ k → (backend j).status < 400)
    (hmore : ∀ j, j < k → (backend j).more = true)
    (hstop : (backend k).more = false) :
    ∀ (fuel p : ℕ) (found : Option ℕ) (items : List SJVacancy),
      p ≤ k → k - p < fuel →
      ∃ f its, sj_fetch_loop backend fuel p found items =
        some (List.range' p (k - p + 1), Except.ok ⟨f, its⟩) := by
  intro fuel
  induction fuel with
  | zero => intro p found items hp hf; omega
  | succ fuel ih =>
    intro p found items hp hf
    have hst : ¬ 400 ≤ (backend p).status := by
      have := hok p hp; omega
    rw [sj_fetch_loop]
    simp only [raise_for_status, if_neg hst]
    by_cases hpk : p = k
    · subst hpk
      rw [hstop]
      refine ⟨some (backend p).total, items ++ (backend p).objects, ?_⟩
      norm_num [List.range'_succ]
    · have hplt : p < k := by omega
      rw [hmore p hplt]
      obtain ⟨f, its, hrec⟩ :=
        ih (p + 1) (some (backend p).total) (items ++ (backend p).objects)
          (by omega) (by omega)
      refine ⟨f, its, ?_⟩
      rw [hrec]
      have h2 : k - p + 1 = (k - (p + 1) + 1) + 1 := by omega
      rw [h2]
      simp [List.range'_succ]

/-- C5: against any backend whose responses succeed, keep the `"more"`
flag true on the pages before `k` and clear it on page `k`,
`get_sj_salaries_by_language` issues exactly the `k + 1` requests for the
page indices `0, ..., k` in order, stopping immediately after the first
false `"more"` flag. -/
theorem sj_pagination_requests (backend : ℕ → SJResponse) (k : ℕ)
    (hok : ∀ j, j ≤ k → (backend j).status < 400)
    (hmore : ∀ j, j < k → (backend j).more = true)
    (hstop : (backend k).more = false)
    (fuel : ℕ) (hfuel : k < fuel) :
    ∃ f its, get_sj_salaries_by_language backend fuel =
      some (List.range (k + 1), Except.ok ⟨f, its⟩) := by
  obtain ⟨f, its, h⟩ :=
    sj_fetch_loop_requests backend k hok hmore hstop fuel 0 none [] (by omega) (by omega)
  refine ⟨f, its, ?_⟩
  rw [get_sj_salaries_by_language, h, List.range_eq_range']
  norm_num

/-- A mock SuperJob backend whose `"more"` flag is true on pages 0 and 1
and false from page 2 on. -/
def sjThreePageBackend : ℕ → SJResponse :=
  fun page => ⟨200, 7, decide (page < 2), []⟩

/-- Witness for C5: the mock with `"more"` true on pages 0-1 and false on
page 2 yields exactly the requests `[0, 1, 2]`. -/
theorem sj_pagination_requests_witness :
    (∀ j, j ≤ 2 → (sjThreePageBackend j).status < 400) ∧
    (∀ j, j < 2 → (sjThreePageBackend j).more = true) ∧
    ((sjThreePageBackend 2).more = false) ∧ (2 < 3) ∧
    ∃ f its, get_sj_salaries_by_language sjThreePageBackend 3 =
      some (List.range 3, Except.ok ⟨f, its⟩) :=
  ⟨fun j _ => by simp [sjThreePageBackend],
   fun j hj => by simp [sjThreePageBackend]; omega,
   by simp [sjThreePageBackend], by omega,
   sj_pagination_requests sjThreePageBackend 2
     (fun j _ => by simp [sjThreePageBackend])
     (fun j hj => by simp [sjThreePageBackend]; omega)
     (by simp [sjThreePageBackend]) 3 (by omega)⟩

/-- A backend whose `"more"` flag is never cleared. -/
def sjEndlessBackend : ℕ → SJResponse :=
  fun _ => ⟨200, 0, true, []⟩

/-- A backend that always reports two more pages than the one just
fetched, so the page-count stop condition is never reached. -/
def hhEndlessBackend : ℕ → HHResponse :=
  fun page => ⟨200, 0, page + 2, []⟩

/-- The SuperJob loop never terminates against `sjEndlessBackend`,
whatever fuel it is given. -/
theorem sj_fetch_loop_endless :
    ∀ (fuel p : ℕ) (found : Option ℕ) (items : List SJVacancy),
      sj_fetch_loop sjEndlessBackend fuel p found items = none := by
  intro fuel
  induction fuel with
  | zero => intro p found items; rfl
  | succ fuel ih =>
    intro p found items
    rw [sj_fetch_loop]
    simp [sjEndlessBackend, raise_for_status, ih]

/-- The HH loop never terminates against `hhEndlessBackend`, whatever fuel
it is given. -/
theorem hh_fetch_loop_endless :
    ∀ (fuel p : ℕ) (found : Option ℕ) (items : List (Option HHVacancy)),
      hh_fetch_loop hhEndlessBackend fuel p found items = none := by
  intro fuel
  induction fuel with
  | zero => intro p found items; rfl
  | succ fuel ih =>
    intro p found items
    rw [hh_fetch_loop]
    simp [hhEndlessBackend, raise_for_status, ih]

/-- C6: the code contradicts the claim.  Against a backend that never
flips its terminal signal, neither adapter raises a `ProtocolError` at any
page-count ceiling — no such ceiling or error exists in the code — and
neither loop ever terminates: for every fuel bound the fuel-indexed loops
are still running (`none`). -/
theorem adapters_hang_without_terminal_signal :
    (∀ fuel, get_sj_salaries_by_language sjEndlessBackend fuel = none) ∧
    (∀ fuel, get_hh_salaries_by_language hhEndlessBackend fuel = none) :=
  ⟨fun fuel => sj_fetch_loop_endless fuel 0 none [],
   fun fuel => hh_fetch_loop_endless fuel 0 none []⟩
